import Mathlib

/-!
Verification of the Agroprecios scraper (src/python/agroprecios/agroprecios_scrapper.py).

The Python module is shallowly embedded: the JSON-backed entity store becomes a
`Store` record threaded explicitly through the operations, HTML documents become
records holding the texts that the BeautifulSoup selectors would extract, and
Python exceptions become `Option` results (`none` = the call raises).
-/

/-- The set of characters stripped by Python `str.strip()` (ASCII whitespace). -/
def isPySpace (c : Char) : Bool :=
  c == ' ' || c == '\t' || c == '\n' || c == '\r' || c == '\x0b' || c == '\x0c'

/-- Python `str.strip()` on the character list of a string. -/
def pyStripList (cs : List Char) : List Char :=
  ((cs.dropWhile isPySpace).reverse.dropWhile isPySpace).reverse

/-- Python `str.strip()`. -/
def pyStrip (s : String) : String := ⟨pyStripList s.data⟩

/-- Python `str.lower()` (ASCII range, which covers the natural keys in play). -/
def pyLower (s : String) : String := ⟨s.data.map Char.toLower⟩

/-- Python `str.upper()` (ASCII range). -/
def pyUpper (s : String) : String := ⟨s.data.map Char.toUpper⟩

/-- The normalisation `name.strip().lower()` used for family/product natural keys. -/
def normName (s : String) : String := pyLower (pyStrip s)

/-- `int(...)` on a string of decimal digit characters. -/
def digitsToNat (cs : List Char) : Nat :=
  cs.foldl (fun n c => 10 * n + (c.toNat - 48)) 0

/-- Does `hay` start with `needle`?  (Used to embed Python substring search.) -/
def listStartsWith : List Char → List Char → Bool
  | [], _ => true
  | _ :: _, [] => false
  | a :: as, b :: bs => a == b && listStartsWith as bs

/-- Python `needle in hay` substring containment on character lists. -/
def containsSub (needle : List Char) : List Char → Bool
  | [] => needle.isEmpty
  | c :: rest => listStartsWith needle (c :: rest) || containsSub needle rest

/-- A record of `subastas.json` (an auction). -/
structure Subasta where
  id : Int
  nombre : String
deriving DecidableEq

/-- A record of `familias.json` (a product family). -/
structure Familia where
  id : Int
  nombre : String
deriving DecidableEq

/-- A record of `productos.json` (a product). -/
structure Producto where
  id : Int
  familia_id : Int
  nombre : String
  url : Option String
deriving DecidableEq

/-- A record of `preciosubasta.json` (a price). -/
structure Precio where
  subasta_id : Int
  fecha : String
  producto_id : Int
  corte : Int
  precio : Int
deriving DecidableEq

/-- The four-part natural key of a price record. -/
abbrev PKey := Int × String × Int × Int

/-- The tuple `(item["subasta_id"], item["fecha"], item["producto_id"], item["corte"])`. -/
def pkeyOf (p : Precio) : PKey := (p.subasta_id, p.fecha, p.producto_id, p.corte)

/-- The natural key `(item["familia_id"], item["nombre"].strip().lower())` of a product. -/
def productoKey (p : Producto) : Int × String := (p.familia_id, normName p.nombre)

/-- Python `dict` lookup, embedded over an association list whose head is the most
recently written binding. -/
def alookup {κ α : Type} [DecidableEq κ] (k : κ) : List (κ × α) → Option α
  | [] => none
  | kv :: rest => if kv.1 = k then some kv.2 else alookup k rest

/-- `{key(item): item for item in items}`: later items overwrite earlier ones, which the
fold realises by prepending, `alookup` returning the first (= last written) binding. -/
def buildIndex {κ α : Type} [DecidableEq κ] (key : α → κ) (items : List α) : List (κ × α) :=
  items.foldl (fun d it => (key it, it) :: d) []

/-- The `JsonStore` state: the four record lists plus the derived lookup indices the
constructor builds (`subastas_by_id`, `familias_by_name`, `productos_by_key`,
`precios_keys`). -/
structure Store where
  subastas : List Subasta
  familias : List Familia
  productos : List Producto
  precios : List Precio
  subastasById : List (Int × Subasta)
  familiasByName : List (String × Familia)
  productosByKey : List ((Int × String) × Producto)
  preciosKeys : Finset PKey
deriving DecidableEq

/-- `JsonStore.__init__` after `_load`: rebuild every index from the loaded lists. -/
def mkStore (subastas : List Subasta) (familias : List Familia)
    (productos : List Producto) (precios : List Precio) : Store :=
  { subastas := subastas
    familias := familias
    productos := productos
    precios := precios
    subastasById := buildIndex (fun it => it.id) subastas
    familiasByName := buildIndex (fun it => normName it.nombre) familias
    productosByKey := buildIndex productoKey productos
    preciosKeys := (precios.map pkeyOf).toFinset }

/-- `JsonStore._next_id` applied to the list of `id` fields:
`(max(ids, default=0) + 1) if items else 1`.  For a nonempty list the `default` is
unused, so this is the true maximum plus one. -/
def next_id (ids : List Int) : Int :=
  match ids with
  | [] => 1
  | x :: xs => xs.foldl max x + 1

/-- `JsonStore.upsert_subasta`.  The dict stores an alias of the list record, so the
in-place `stored["nombre"] = ...` mutation is modelled by rewriting the record in the
list and in the index; for stores whose ids are duplicate-free (as `mkStore` and the
operations keep them) this is exactly the Python aliasing behaviour. -/
def upsert_subasta (subasta_id : Int) (nombre : String) (s : Store) : Store :=
  match alookup subasta_id s.subastasById with
  | none =>
    let record : Subasta := ⟨subasta_id, pyStrip nombre⟩
    { s with subastas := s.subastas ++ [record]
             subastasById := (subasta_id, record) :: s.subastasById }
  | some stored =>
    if pyStrip nombre ≠ "" ∧ stored.nombre ≠ pyStrip nombre then
      { s with
        subastas := s.subastas.map
          (fun it => if it.id = subasta_id then { it with nombre := pyStrip nombre } else it)
        subastasById := s.subastasById.map
          (fun kv => if kv.1 = subasta_id then (kv.1, { kv.2 with nombre := pyStrip nombre }) else kv) }
    else s

/-- `JsonStore.get_or_create_familia`, returning the id and the updated store. -/
def get_or_create_familia (family_name : String) (s : Store) : Int × Store :=
  match alookup (normName family_name) s.familiasByName with
  | some existing => (existing.id, s)
  | none =>
    let family_id := next_id (s.familias.map (fun it => it.id))
    let record : Familia := ⟨family_id, pyStrip family_name⟩
    (family_id,
      { s with familias := s.familias ++ [record]
               familiasByName := (normName family_name, record) :: s.familiasByName })

/-- Python truthiness of `str | None` (`None` and `""` are falsy). -/
def truthyStr : Option String → Bool
  | none => false
  | some t => !(t == "")

/-- `JsonStore.get_or_create_producto`.  On a hit with a truthy incoming URL and a
falsy stored URL the Python code mutates the aliased record in place
(`existing["url"] = product_url`); as in `upsert_subasta` the mutation is applied to
the record everywhere it is referenced. -/
def get_or_create_producto (family_id : Int) (product_name : String)
    (product_url : Option String) (s : Store) : Int × Store :=
  let key : Int × String := (family_id, normName product_name)
  match alookup key s.productosByKey with
  | some existing =>
    if truthyStr product_url && !truthyStr existing.url then
      (existing.id,
        { s with
          productos := s.productos.map
            (fun p => if productoKey p = key then { p with url := product_url } else p)
          productosByKey := s.productosByKey.map
            (fun kv => if kv.1 = key then (kv.1, { kv.2 with url := product_url }) else kv) })
    else (existing.id, s)
  | none =>
    let product_id := next_id (s.productos.map (fun p => p.id))
    let record : Producto := ⟨product_id, family_id, pyStrip product_name, product_url⟩
    (product_id,
      { s with productos := s.productos ++ [record]
               productosByKey := (key, record) :: s.productosByKey })

/-- `JsonStore.insert_precio`: returns the `was_inserted` flag and the updated store. -/
def insert_precio (subasta_id : Int) (fecha_iso : String) (producto_id : Int)
    (corte : Int) (precio : Int) (s : Store) : Bool × Store :=
  let key : PKey := (subasta_id, fecha_iso, producto_id, corte)
  if key ∈ s.preciosKeys then (false, s)
  else
    (true,
      { s with precios := s.precios ++ [⟨subasta_id, fecha_iso, producto_id, corte, precio⟩]
               preciosKeys := insert key s.preciosKeys })


/-- A value of Python `datetime.date` (always a valid calendar date). -/
structure PyDate where
  year : Nat
  month : Nat
  day : Nat
deriving DecidableEq

/-- Gregorian leap-year rule, as `datetime` uses it. -/
def isLeap (y : Nat) : Bool :=
  y % 4 == 0 && (y % 100 != 0 || y % 400 == 0)

/-- Days in a month, as `datetime` validates them. -/
def daysInMonth (y m : Nat) : Nat :=
  if m = 2 then (if isLeap y then 29 else 28)
  else if m = 4 ∨ m = 6 ∨ m = 9 ∨ m = 11 then 30
  else 31

/-- The `date(year, month, day)` constructor: `none` models the `ValueError` raised
on an out-of-range year, month or day. -/
def mkDate (y m d : Nat) : Option PyDate :=
  if 1 ≤ y ∧ y ≤ 9999 ∧ 1 ≤ m ∧ m ≤ 12 ∧ 1 ≤ d ∧ d ≤ daysInMonth y m then
    some ⟨y, m, d⟩
  else none

/-- Zero-pad a number to two digits, as `%m`/`%d` do. -/
def pad2 (n : Nat) : String := if n < 10 then "0" ++ toString n else toString n

/-- `date_to_iso`: `value.strftime("%Y-%m-%d")`. -/
def date_to_iso (value : PyDate) : String :=
  toString value.year ++ "-" ++ pad2 value.month ++ "-" ++ pad2 value.day

/-- Try to match the regex `(\d{2})-(\d{2})-(\d{4})` at the head of the text,
returning `(day, month, year)` group values. -/
def matchDateAt : List Char → Option (Nat × Nat × Nat)
  | d1 :: d2 :: '-' :: m1 :: m2 :: '-' :: y1 :: y2 :: y3 :: y4 :: _ =>
    if d1.isDigit && d2.isDigit && m1.isDigit && m2.isDigit
        && y1.isDigit && y2.isDigit && y3.isDigit && y4.isDigit then
      some (digitsToNat [d1, d2], digitsToNat [m1, m2], digitsToNat [y1, y2, y3, y4])
    else none
  | _ => none

/-- `re.search(r"(\d{2})-(\d{2})-(\d{4})", text)`: leftmost match (the pattern has a
fixed length, so leftmost position is the whole search semantics). -/
def findDatePattern : List Char → Option (Nat × Nat × Nat)
  | [] => none
  | c :: rest =>
    match matchDateAt (c :: rest) with
    | some r => some r
    | none => findDatePattern rest

/-- A `tr` element of the products table, holding what the row-level selectors of the
module extract: the `class` attribute list, the `get_text(" ", strip=True)` of the
first `td[class^='fam']` cell and of the first `td.pro` cell (`none` = no such cell),
the `onclick` attribute (`row.get("onclick", "")` defaults to `""`), and the
`get_text(strip=True)` of the `td.txt` cells in order. -/
structure TableRow where
  classes : List String
  famCell : Option String
  proCell : Option String
  onclick : String
  txtCells : List String
deriving DecidableEq

/-- A parsed document: the texts that the three CSS selectors of the module extract.
`titNombreder`/`titNombreizq` are the `get_text` of the two title cells of
`table.tab_pre_sub` (`none` = no such cell); `tabPrePro` is the `tr` list of
`table.tab_pre_pro` (`none` = no products table). -/
structure Doc where
  titNombreder : Option String
  titNombreizq : Option String
  tabPrePro : Option (List TableRow)
deriving DecidableEq

/-- `extract_table_date`: `none` models the `ValueError` that `date(...)` raises when
the matched digits are not a valid calendar date; every other path returns a date. -/
def extract_table_date (soup : Doc) (fallback : PyDate) : Option PyDate :=
  match soup.titNombreder with
  | none => some fallback
  | some text =>
    match findDatePattern text.data with
    | none => some fallback
    | some (day, month, year) => mkDate year month day

/-- `extract_auction_name`. -/
def extract_auction_name (soup : Doc) (fallback_id : Int) : String :=
  match soup.titNombreizq with
  | none => "Subasta " ++ toString fallback_id
  | some name => if name = "" then "Subasta " ++ toString fallback_id else name

/-- A normalized row produced by the HTML row extractor (`ParsedRow` dataclass). -/
structure ParsedRow where
  family_name : String
  product_name : String
  product_url : Option String
  cuts : List (Option Int)
deriving DecidableEq

/-- The single-quote character (avoids an inline quote literal). -/
def quoteChar : Char := Char.ofNat 39

/-- Consume a literal string at the head of the input, returning the rest. -/
def stripLiteral : List Char → List Char → Option (List Char)
  | [], cs => some cs
  | _ :: _, [] => none
  | l :: ls, c :: cs => if c = l then stripLiteral ls cs else none

/-- Try to match the regex `window\.location\s*=\s*'([^']+)'` at the head of the
text, returning the group-1 capture.  Every piece of the pattern is deterministic
(fixed literals, maximal munch for `\s*` and `[^']+`), so no backtracking is lost. -/
def matchWindowLocAt (cs : List Char) : Option (List Char) :=
  match stripLiteral "window.location".data cs with
  | none => none
  | some rest1 =>
    match rest1.dropWhile isPySpace with
    | '=' :: rest3 =>
      match rest3.dropWhile isPySpace with
      | q :: rest5 =>
        if q = quoteChar then
          let captured := rest5.takeWhile (fun c => c != quoteChar)
          match rest5.dropWhile (fun c => c != quoteChar) with
          | [] => none
          | _ :: _ => if captured.isEmpty then none else some captured
        else none
      | [] => none
    | _ => none

/-- `re.search` for the `window.location` pattern: leftmost successful start. -/
def findWindowLocation : List Char → Option (List Char)
  | [] => none
  | c :: rest =>
    match matchWindowLocAt (c :: rest) with
    | some r => some r
    | none => findWindowLocation rest

/-- `parse_product_url`: `row.get("onclick", "")`, empty is falsy, then the regex. -/
def parse_product_url (row : TableRow) : Option String :=
  if row.onclick = "" then none
  else
    match findWindowLocation row.onclick.data with
    | some captured => some ⟨captured⟩
    | none => none

/-- The loop body of `parse_cuts` for one `td.txt` cell text. -/
def cutCellValue (text : String) : Option Int :=
  if text = "-" ∨ text = "" then none
  else
    let cleaned := text.data.filter Char.isDigit
    if cleaned = [] then none else some (Int.ofNat (digitsToNat cleaned))

/-- `parse_cuts`: map the row's `td.txt` cell texts left to right. -/
def parse_cuts (row : TableRow) : List (Option Int) :=
  row.txtCells.map cutCellValue

/-- One iteration of the `parse_rows` loop over the `(rows, current_family)` state. -/
def parseRowsStep (acc : List ParsedRow × String) (row : TableRow) :
    List ParsedRow × String :=
  if "familias_subasta" ∈ row.classes then
    match row.famCell with
    | some t => (acc.1, t)
    | none => acc
  else
    match row.proCell with
    | none => acc
    | some product_name =>
      if acc.2 = "" then acc
      else
        (acc.1 ++ [⟨acc.2, product_name, parse_product_url row, parse_cuts row⟩], acc.2)

/-- `parse_rows`: no `table.tab_pre_pro` means an empty result, otherwise the fold of
`parseRowsStep` over the table's `tr` elements starting from `([], "")`. -/
def parse_rows (soup : Doc) : List ParsedRow :=
  match soup.tabPrePro with
  | none => []
  | some trs => (trs.foldl parseRowsStep ([], "")).1

/-- `has_error_response`: `"ERROR" in html.upper() and "tab_pre_pro" not in html`. -/
def has_error_response (html : String) : Bool :=
  containsSub "ERROR".data (pyUpper html).data && !containsSub "tab_pre_pro".data html.data

/-- The outcome of `fetch_auction_html` for one `(auction id, day)` pair: a network
failure (`requests.RequestException`, caught by the driver) or the page text together
with its `BeautifulSoup` parse. -/
inductive FetchResult where
  | failure
  | page (html : String) (soup : Doc)
deriving DecidableEq

/-- The per-row body of `run_scrapper`: get-or-create the family and the product,
then `enumerate(row.cuts, start=1)` inserting every non-null price and counting the
successful inserts. -/
def processRow (subasta_id : Int) (fecha_iso : String) (acc : Store × Nat)
    (row : ParsedRow) : Store × Nat :=
  let r1 := get_or_create_familia row.family_name acc.1
  let r2 := get_or_create_producto r1.1 row.product_name row.product_url r1.2
  let r3 := row.cuts.foldl
    (fun (t : (Store × Nat) × Int) cut =>
      match cut with
      | none => (t.1, t.2 + 1)
      | some price =>
        let ins := insert_precio subasta_id fecha_iso r2.1 t.2 price t.1.1
        ((ins.2, if ins.1 then t.1.2 + 1 else t.1.2), t.2 + 1))
    ((r2.2, acc.2), (1 : Int))
  r3.1

/-- The body of the inner loop of `run_scrapper` for one `(auction id, day)` pair,
given the fetch outcome: returns the store and the number of newly inserted prices,
or `none` when an uncaught exception aborts the run (the only such exception on this
path is the `ValueError` out of `extract_table_date`). -/
def processPair (store : Store) (subasta_id : Int) (current_day : PyDate)
    (fetched : FetchResult) : Option (Store × Nat) :=
  match fetched with
  | .failure => some (store, 0)
  | .page html soup =>
    if has_error_response html then some (store, 0)
    else
      let auction_name := extract_auction_name soup subasta_id
      match extract_table_date soup current_day with
      | none => none
      | some displayed_date =>
        let displayed_date_iso := date_to_iso displayed_date
        let parsed_rows := parse_rows soup
        if parsed_rows = [] then some (store, 0)
        else
          let st1 := upsert_subasta subasta_id auction_name store
          some (parsed_rows.foldl (processRow subasta_id displayed_date_iso) (st1, 0))

/-- Spec-side characterisation of substring containment: `needle` occurs contiguously
inside `hay`. -/
def SubstringAt (needle hay : List Char) : Prop :=
  ∃ pre post, hay = pre ++ needle ++ post

/-- Spec-side description of one price cell, following the claim's words: a lone dash
or a blank cell, or a cell whose text is empty after removing every non-digit
character, yields a null entry; any other cell yields the integer parsed from its
digit characters. -/
def cutSpecValue (text : String) : Option Int :=
  if text = "-" ∨ text = "" ∨ text.data.filter Char.isDigit = [] then none
  else some (Int.ofNat (digitsToNat (text.data.filter Char.isDigit)))

/-- The price-collection invariant: the key index is exactly the set of natural keys
of the price records, and the records carry pairwise distinct keys. -/
def PriceInvariant (s : Store) : Prop :=
  s.preciosKeys = (s.precios.map pkeyOf).toFinset ∧ (s.precios.map pkeyOf).Nodup

lemma listStartsWith_iff (n : List Char) : ∀ h : List Char,
    listStartsWith n h = true ↔ ∃ post, h = n ++ post := by
  induction n with
  | nil =>
    intro h
    simp [listStartsWith]
  | cons a as ih =>
    intro h
    cases h with
    | nil =>
      simp [listStartsWith]
    | cons b bs =>
      simp only [listStartsWith, Bool.and_eq_true, beq_iff_eq, ih bs]
      constructor
      · rintro ⟨rfl, post, rfl⟩
        exact ⟨post, rfl⟩
      · rintro ⟨post, hp⟩
        rw [List.cons_append] at hp
        injection hp with h1 h2
        exact ⟨h1.symm, post, h2⟩

lemma containsSub_iff (n : List Char) : ∀ h : List Char,
    containsSub n h = true ↔ SubstringAt n h := by
  intro h
  induction h with
  | nil =>
    simp only [containsSub, SubstringAt, List.isEmpty_iff]
    constructor
    · rintro rfl
      exact ⟨[], [], rfl⟩
    · rintro ⟨pre, post, hp⟩
      rcases List.append_eq_nil.1 hp.symm with ⟨h1, h2⟩
      rcases List.append_eq_nil.1 h1 with ⟨_, h3⟩
      exact h3
  | cons c rest ih =>
    simp only [containsSub, Bool.or_eq_true, listStartsWith_iff, ih, SubstringAt]
    constructor
    · rintro (⟨post, hp⟩ | ⟨pre, post, hp⟩)
      · exact ⟨[], post, by simpa using hp⟩
      · exact ⟨c :: pre, post, by simp [hp]⟩
    · rintro ⟨pre, post, hp⟩
      cases pre with
      | nil =>
        exact Or.inl ⟨post, by simpa using hp⟩
      | cons d pres =>
        rw [List.cons_append, List.cons_append] at hp
        injection hp with h1 h2
        exact Or.inr ⟨pres, post, h2⟩

lemma le_foldl_max (xs : List Int) : ∀ x : Int, x ≤ xs.foldl max x := by
  induction xs with
  | nil => intro x; exact le_refl x
  | cons y ys ih =>
    intro x
    calc x ≤ max x y := le_max_left x y
    _ ≤ ys.foldl max (max x y) := ih (max x y)

lemma mem_le_foldl_max (xs : List Int) : ∀ x i : Int, i ∈ xs → i ≤ xs.foldl max x := by
  induction xs with
  | nil => intro x i hi; cases hi
  | cons y ys ih =>
    intro x i hi
    rcases List.mem_cons.1 hi with rfl | hmem
    · calc i ≤ max x i := le_max_right x i
      _ ≤ ys.foldl max (max x i) := le_foldl_max ys (max x i)
    · exact ih (max x y) i hmem

lemma lt_next_id (ids : List Int) (i : Int) (hi : i ∈ ids) : i < next_id ids := by
  cases ids with
  | nil => cases hi
  | cons x xs =>
    have hle : i ≤ xs.foldl max x := by
      rcases List.mem_cons.1 hi with rfl | hmem
      · exact le_foldl_max xs i
      · exact mem_le_foldl_max xs x i hmem
    exact lt_of_le_of_lt hle (lt_add_one _)

lemma alookup_map_update {κ α : Type} [DecidableEq κ] (k : κ) (f : α → α) :
    ∀ (d : List (κ × α)) (v : α), alookup k d = some v →
      alookup k (d.map (fun kv => if kv.1 = k then (kv.1, f kv.2) else kv)) = some (f v) := by
  intro d
  induction d with
  | nil => intro v hv; cases hv
  | cons kv rest ih =>
    intro v hv
    by_cases hk : kv.1 = k
    · rw [alookup, if_pos hk] at hv
      injection hv with hv
      simp only [List.map_cons, if_pos hk, alookup]
      rw [hv]
    · rw [alookup, if_neg hk] at hv
      simp only [List.map_cons, if_neg hk, alookup]
      exact ih v hv

/-- Claim C1: for every store state and price natural key, `insert_precio` on a
present key returns `false` and leaves the store completely unchanged (so the price
collection's length in particular), while on an absent key it returns `true` and
appends exactly one record carrying that key and the given price. -/
theorem insert_precio_dedup (s : Store) (sid : Int) (fecha : String)
    (pid corte precio : Int) :
    (((sid, fecha, pid, corte) : PKey) ∈ s.preciosKeys →
      insert_precio sid fecha pid corte precio s = (false, s)) ∧
    (((sid, fecha, pid, corte) : PKey) ∉ s.preciosKeys →
      (insert_precio sid fecha pid corte precio s).1 = true ∧
      (insert_precio sid fecha pid corte precio s).2.precios
        = s.precios ++ [⟨sid, fecha, pid, corte, precio⟩] ∧
      (insert_precio sid fecha pid corte precio s).2.precios.length
        = s.precios.length + 1) := by
  constructor
  · intro hmem
    simp [insert_precio, hmem]
  · intro hmem
    simp [insert_precio, hmem]

/-- Witness for C1: inserting into the freshly constructed empty store succeeds and
yields a one-record price collection. -/
theorem insert_precio_dedup_witness :
    (insert_precio 1 "2024-03-05" 2 1 1500 (mkStore [] [] [] [])).1 = true ∧
    (insert_precio 1 "2024-03-05" 2 1 1500 (mkStore [] [] [] [])).2.precios.length = 1 := by
  have h := (insert_precio_dedup (mkStore [] [] [] []) 1 "2024-03-05" 2 1 1500).2
    (by decide)
  exact ⟨h.1, by rw [h.2.2]; rfl⟩

lemma nodup_append_single {α : Type} (l : List α) (a : α)
    (h1 : l.Nodup) (h2 : a ∉ l) : (l ++ [a]).Nodup := by
  rw [List.nodup_append]
  refine ⟨h1, List.nodup_singleton a, ?_⟩
  intro x hx hxa
  rw [List.mem_singleton] at hxa
  exact h2 (hxa ▸ hx)

/-- Claim C10: the constructor establishes that the price key index equals the set of
natural keys of the price records; given a duplicate-free loaded state the full
invariant holds, record count equals distinct-key count, every `insert_precio`
returning `true` grows both the record list and the key set by exactly one, and every
call returning `false` changes neither. -/
theorem price_key_index_invariant :
    (∀ (ls : List Subasta) (lf : List Familia) (lp : List Producto) (lpr : List Precio),
      (mkStore ls lf lp lpr).preciosKeys
        = ((mkStore ls lf lp lpr).precios.map pkeyOf).toFinset) ∧
    (∀ (ls : List Subasta) (lf : List Familia) (lp : List Producto) (lpr : List Precio),
      (lpr.map pkeyOf).Nodup → PriceInvariant (mkStore ls lf lp lpr)) ∧
    (∀ (s : Store) (sid : Int) (fecha : String) (pid corte precio : Int),
      PriceInvariant s →
        PriceInvariant (insert_precio sid fecha pid corte precio s).2 ∧
        s.precios.length = s.preciosKeys.card ∧
        ((insert_precio sid fecha pid corte precio s).1 = true →
          (insert_precio sid fecha pid corte precio s).2.precios.length
            = s.precios.length + 1 ∧
          (insert_precio sid fecha pid corte precio s).2.preciosKeys.card
            = s.preciosKeys.card + 1) ∧
        ((insert_precio sid fecha pid corte precio s).1 = false →
          (insert_precio sid fecha pid corte precio s).2 = s)) := by
  refine ⟨fun ls lf lp lpr => rfl, fun ls lf lp lpr h => ⟨rfl, h⟩, ?_⟩
  intro s sid fecha pid corte precio hinv
  obtain ⟨hkeys, hnodup⟩ := hinv
  have hlen : s.precios.length = s.preciosKeys.card := by
    rw [hkeys, List.toFinset_card_of_nodup hnodup, List.length_map]
  by_cases hmem : ((sid, fecha, pid, corte) : PKey) ∈ s.preciosKeys
  · have heq : insert_precio sid fecha pid corte precio s = (false, s) := by
      simp [insert_precio, hmem]
    refine ⟨?_, hlen, ?_, ?_⟩
    · rw [heq]
      exact ⟨hkeys, hnodup⟩
    · intro h
      rw [heq] at h
      cases h
    · intro _
      rw [heq]
  · have hnotin : ((sid, fecha, pid, corte) : PKey) ∉ s.precios.map pkeyOf := by
      rw [hkeys] at hmem
      exact fun hc => hmem (List.mem_toFinset.2 hc)
    have heq : insert_precio sid fecha pid corte precio s
        = (true,
          { s with precios := s.precios ++ [⟨sid, fecha, pid, corte, precio⟩]
                   preciosKeys := insert (sid, fecha, pid, corte) s.preciosKeys }) := by
      simp [insert_precio, hmem]
    have hmapnew : (s.precios ++ [⟨sid, fecha, pid, corte, precio⟩] : List Precio).map pkeyOf
        = s.precios.map pkeyOf ++ [((sid, fecha, pid, corte) : PKey)] := by
      rw [List.map_append]
      rfl
    refine ⟨?_, hlen, ?_, ?_⟩
    · rw [heq]
      constructor
      · show insert ((sid, fecha, pid, corte) : PKey) s.preciosKeys = _
        rw [hmapnew, hkeys]
        ext x
        simp only [Finset.mem_insert, List.mem_toFinset, List.mem_append,
          List.mem_singleton]
        tauto
      · show ((s.precios ++ [⟨sid, fecha, pid, corte, precio⟩] : List Precio).map pkeyOf).Nodup
        rw [hmapnew]
        exact nodup_append_single _ _ hnodup hnotin
    · intro _
      rw [heq]
      constructor
      · simp
      · exact Finset.card_insert_of_not_mem hmem
    · intro h
      rw [heq] at h
      simp at h

/-- Witness for C10: the invariant instantiated on the freshly constructed empty
store and one concrete insertion. -/
theorem price_key_index_invariant_witness :
    PriceInvariant (insert_precio 1 "2024-03-05" 2 1 1500 (mkStore [] [] [] [])).2 :=
  (price_key_index_invariant.2.2 (mkStore [] [] [] []) 1 "2024-03-05" 2 1 1500
    ⟨rfl, List.nodup_nil⟩).1

/-- Claim C2: two family names that agree after trimming and lower-casing resolve to
the same surrogate id; the second call changes nothing, and the pair of calls creates
at most one family entity. -/
theorem familia_norm_key_collapse (s : Store) (n1 n2 : String)
    (hnorm : normName n1 = normName n2) :
    (get_or_create_familia n2 (get_or_create_familia n1 s).2).1
      = (get_or_create_familia n1 s).1 ∧
    (get_or_create_familia n2 (get_or_create_familia n1 s).2).2
      = (get_or_create_familia n1 s).2 ∧
    (get_or_create_familia n1 s).2.familias.length ≤ s.familias.length + 1 := by
  cases hl : alookup (normName n1) s.familiasByName with
  | some existing =>
    have h1 : get_or_create_familia n1 s = (existing.id, s) := by
      rw [get_or_create_familia, hl]
    have hl2 : alookup (normName n2) s.familiasByName = some existing := by
      rw [← hnorm]
      exact hl
    have h2 : get_or_create_familia n2 s = (existing.id, s) := by
      rw [get_or_create_familia, hl2]
    rw [h1, h2]
    exact ⟨rfl, rfl, Nat.le_succ _⟩
  | none =>
    have h1 : get_or_create_familia n1 s
        = (next_id (s.familias.map (fun it => it.id)),
          { s with
            familias := s.familias
              ++ [⟨next_id (s.familias.map (fun it => it.id)), pyStrip n1⟩]
            familiasByName := (normName n1,
              (⟨next_id (s.familias.map (fun it => it.id)), pyStrip n1⟩ : Familia))
              :: s.familiasByName }) := by
      rw [get_or_create_familia, hl]
    rw [h1]
    rw [get_or_create_familia]
    have hl2 : alookup (normName n2)
        ((normName n1,
          (⟨next_id (s.familias.map (fun it => it.id)), pyStrip n1⟩ : Familia))
          :: s.familiasByName)
        = some ⟨next_id (s.familias.map (fun it => it.id)), pyStrip n1⟩ := by
      rw [alookup, if_pos hnorm]
    rw [hl2]
    exact ⟨rfl, rfl, by simp⟩

/-- Witness for C2: `get_or_create_familia "Vacuno"` followed by
`get_or_create_familia " vacuno "` on the empty store returns the same id. -/
theorem familia_norm_key_collapse_witness :
    (get_or_create_familia " vacuno "
        (get_or_create_familia "Vacuno" (mkStore [] [] [] [])).2).1
      = (get_or_create_familia "Vacuno" (mkStore [] [] [] [])).1 :=
  (familia_norm_key_collapse (mkStore [] [] [] []) "Vacuno" " vacuno " (by decide)).1

/-- Claim C5: surrogate ids are `max(existing ids) + 1`, or `1` on an empty
collection; the first family created into an empty store gets id 1, a creation's id
strictly exceeds every existing id (so the maximum strictly increases and no id is
ever reused), for families and for products alike. -/
theorem surrogate_id_monotonic :
    next_id [] = 1 ∧
    (∀ (ids : List Int) (i : Int), i ∈ ids → i < next_id ids) ∧
    (∀ name : String, (get_or_create_familia name (mkStore [] [] [] [])).1 = 1) ∧
    (∀ (s : Store) (name : String),
      alookup (normName name) s.familiasByName = none →
        (get_or_create_familia name s).2.familias.map (fun it => it.id)
          = s.familias.map (fun it => it.id) ++ [(get_or_create_familia name s).1] ∧
        (∀ i ∈ s.familias.map (fun it => it.id), i < (get_or_create_familia name s).1)) ∧
    (∀ (s : Store) (fid : Int) (pname : String) (url : Option String),
      alookup ((fid, normName pname) : Int × String) s.productosByKey = none →
        ∀ i ∈ s.productos.map (fun p => p.id),
          i < (get_or_create_producto fid pname url s).1) := by
  refine ⟨rfl, lt_next_id, fun name => rfl, ?_, ?_⟩
  · intro s name hl
    have h1 : get_or_create_familia name s
        = (next_id (s.familias.map (fun it => it.id)),
          { s with
            familias := s.familias
              ++ [⟨next_id (s.familias.map (fun it => it.id)), pyStrip name⟩]
            familiasByName := (normName name,
              (⟨next_id (s.familias.map (fun it => it.id)), pyStrip name⟩ : Familia))
              :: s.familiasByName }) := by
      rw [get_or_create_familia, hl]
    rw [h1]
    constructor
    · simp
    · intro i hi
      exact lt_next_id _ i hi
  · intro s fid pname url hl
    intro i hi
    have h1 : (get_or_create_producto fid pname url s).1
        = next_id (s.productos.map (fun p => p.id)) := by
      rw [get_or_create_producto, hl]
    rw [h1]
    exact lt_next_id _ i hi

/-- Witness for C5: a concrete taken id is strictly below the next surrogate id, and
the first family created into the empty store receives id 1. -/
theorem surrogate_id_monotonic_witness :
    (5 : Int) < next_id [5] ∧
    (get_or_create_familia "Vacuno" (mkStore [] [] [] [])).1 = 1 :=
  ⟨surrogate_id_monotonic.2.1 [5] 5 (by decide),
    surrogate_id_monotonic.2.2.1 "Vacuno"⟩

lemma map_nombre_update (l : List Producto) (key : Int × String) (u : Option String) :
    (l.map (fun p => if productoKey p = key then { p with url := u } else p)).map
        (fun p => p.nombre)
      = l.map (fun p => p.nombre) := by
  induction l with
  | nil => rfl
  | cons p rest ih =>
    simp only [List.map_cons, ih]
    congr 1
    by_cases h : productoKey p = key
    · simp [h]
    · simp [h]

/-- Claim C6: `get_or_create_producto` on an existing `(familyId, normalized name)`
key returns the stored id, never creates a second product, never changes any stored
product name, and overwrites the stored URL with the incoming URL exactly when the
stored URL is falsy and the incoming URL is truthy. -/
theorem producto_hit_url_backfill (s : Store) (fid : Int) (name : String)
    (url : Option String) (ex : Producto)
    (hl : alookup ((fid, normName name) : Int × String) s.productosByKey = some ex) :
    (get_or_create_producto fid name url s).1 = ex.id ∧
    (get_or_create_producto fid name url s).2.productos.length = s.productos.length ∧
    (get_or_create_producto fid name url s).2.productos.map (fun p => p.nombre)
      = s.productos.map (fun p => p.nombre) ∧
    ((truthyStr url && !truthyStr ex.url) = false →
      (get_or_create_producto fid name url s).2 = s) ∧
    ((truthyStr url && !truthyStr ex.url) = true →
      alookup ((fid, normName name) : Int × String)
          (get_or_create_producto fid name url s).2.productosByKey
        = some { ex with url := url }) := by
  have heq : get_or_create_producto fid name url s
      = (if truthyStr url && !truthyStr ex.url then
          (ex.id,
            { s with
              productos := s.productos.map
                (fun p => if productoKey p = (fid, normName name) then
                  { p with url := url } else p)
              productosByKey := s.productosByKey.map
                (fun kv => if kv.1 = (fid, normName name) then
                  (kv.1, { kv.2 with url := url }) else kv) })
        else (ex.id, s)) := by
    simp only [get_or_create_producto, hl]
  cases hbool : truthyStr url && !truthyStr ex.url with
  | false =>
    have heq2 : get_or_create_producto fid name url s = (ex.id, s) := by
      rw [heq, hbool]
      simp
    rw [heq2]
    refine ⟨rfl, rfl, rfl, fun _ => rfl, ?_⟩
    intro h
    exact Bool.noConfusion h
  | true =>
    have heq2 : get_or_create_producto fid name url s
        = (ex.id,
          { s with
            productos := s.productos.map
              (fun p => if productoKey p = (fid, normName name) then
                { p with url := url } else p)
            productosByKey := s.productosByKey.map
              (fun kv => if kv.1 = (fid, normName name) then
                (kv.1, { kv.2 with url := url }) else kv) }) := by
      rw [heq, hbool]
      simp
    rw [heq2]
    refine ⟨rfl, by simp, ?_, ?_, ?_⟩
    · exact map_nombre_update s.productos (fid, normName name) url
    · intro h
      exact Bool.noConfusion h
    · intro _
      exact alookup_map_update (fid, normName name)
        (fun p => { p with url := url }) s.productosByKey ex hl

/-- Witness for C6: a product stored without a URL, looked up again with a non-empty
URL, keeps its id and single record and ends up with the URL populated. -/
theorem producto_hit_url_backfill_witness :
    (get_or_create_producto 1 "Novillo" (some "https://x")
        (mkStore [] [] [⟨1, 1, "Novillo", none⟩] [])).1 = 1 ∧
    alookup ((1, normName "Novillo") : Int × String)
        (get_or_create_producto 1 "Novillo" (some "https://x")
          (mkStore [] [] [⟨1, 1, "Novillo", none⟩] [])).2.productosByKey
      = some ⟨1, 1, "Novillo", some "https://x"⟩ := by
  have h := producto_hit_url_backfill (mkStore [] [] [⟨1, 1, "Novillo", none⟩] [])
    1 "Novillo" (some "https://x") ⟨1, 1, "Novillo", none⟩ (by decide)
  exact ⟨h.1, h.2.2.2.2 (by decide)⟩

/-- Claim C3: `parse_cuts` maps the row's price cells left to right with the
cell-value rule the spec states (dash/blank or no digits left after cleaning gives a
null entry, anything else the integer parsed from the digit characters), and the
concrete row `["1200", "-", "", "980"]` parses to `[1200, None, None, 980]`. -/
theorem parse_cuts_cell_mapping :
    (∀ row : TableRow, parse_cuts row = row.txtCells.map cutSpecValue) ∧
    parse_cuts ⟨[], none, none, "", ["1200", "-", "", "980"]⟩
      = [some 1200, none, none, some 980] := by
  constructor
  · intro row
    have hpt : ∀ t : String, cutCellValue t = cutSpecValue t := by
      intro t
      by_cases h1 : t = "-"
      · simp [cutCellValue, cutSpecValue, h1]
      · by_cases h2 : t = ""
        · simp [cutCellValue, cutSpecValue, h2]
        · by_cases h3 : t.data.filter Char.isDigit = []
          · simp [cutCellValue, cutSpecValue, h1, h2, h3]
          · simp [cutCellValue, cutSpecValue, h1, h2, h3]
    have hfun : cutCellValue = cutSpecValue := funext hpt
    rw [parse_cuts, hfun]
  · decide

/-- Claim C4: `has_error_response` is true exactly when the upper-cased text contains
the token `ERROR` and the raw text does not contain the products-table marker
`tab_pre_pro`; hence any text containing the marker is classified as not an error. -/
theorem has_error_response_characterization :
    (∀ html : String,
      has_error_response html = true ↔
        SubstringAt "ERROR".data (pyUpper html).data ∧
        ¬ SubstringAt "tab_pre_pro".data html.data) ∧
    (∀ html : String, SubstringAt "tab_pre_pro".data html.data →
      has_error_response html = false) := by
  have hmain : ∀ html : String,
      has_error_response html = true ↔
        SubstringAt "ERROR".data (pyUpper html).data ∧
        ¬ SubstringAt "tab_pre_pro".data html.data := by
    intro html
    unfold has_error_response
    rw [Bool.and_eq_true, containsSub_iff]
    constructor
    · rintro ⟨hup, hmk⟩
      refine ⟨hup, ?_⟩
      intro hsub
      have hb := (containsSub_iff "tab_pre_pro".data html.data).2 hsub
      rw [hb] at hmk
      exact Bool.noConfusion hmk
    · rintro ⟨hup, hmk⟩
      refine ⟨hup, ?_⟩
      cases hb : containsSub "tab_pre_pro".data html.data with
      | false => rfl
      | true => exact absurd ((containsSub_iff _ _).1 hb) hmk
  refine ⟨hmain, ?_⟩
  intro html hsub
  have hb : containsSub "tab_pre_pro".data html.data = true :=
    (containsSub_iff _ _).2 hsub
  unfold has_error_response
  rw [hb]
  simp

/-- Witness for C4: a blob containing both `ERROR` and the products-table marker is
classified as not an error response. -/
theorem has_error_response_characterization_witness :
    has_error_response "AA ERROR BB tab_pre_pro CC" = false :=
  has_error_response_characterization.2 "AA ERROR BB tab_pre_pro CC"
    ⟨"AA ERROR BB ".data, " CC".data, by decide⟩

/-- Claim C9: a family-header row without a family cell leaves the current family
unchanged (the step is the identity, so deleting such a row from the table does not
change the parse), and a product row arriving while no family has ever been set is
skipped. -/
theorem family_header_missing_cell_noop :
    (∀ (acc : List ParsedRow × String) (row : TableRow),
      "familias_subasta" ∈ row.classes → row.famCell = none →
        parseRowsStep acc row = acc) ∧
    (∀ (tder tizq : Option String) (pre post : List TableRow) (row : TableRow),
      "familias_subasta" ∈ row.classes → row.famCell = none →
        parse_rows ⟨tder, tizq, some (pre ++ row :: post)⟩
          = parse_rows ⟨tder, tizq, some (pre ++ post)⟩) ∧
    (∀ (acc : List ParsedRow × String) (row : TableRow),
      "familias_subasta" ∉ row.classes → acc.2 = "" →
        parseRowsStep acc row = acc) := by
  have hstep : ∀ (acc : List ParsedRow × String) (row : TableRow),
      "familias_subasta" ∈ row.classes → row.famCell = none →
        parseRowsStep acc row = acc := by
    intro acc row hmem hfam
    simp [parseRowsStep, hmem, hfam]
  refine ⟨hstep, ?_, ?_⟩
  · intro tder tizq pre post row hmem hfam
    show ((pre ++ row :: post).foldl parseRowsStep ([], "")).1
        = ((pre ++ post).foldl parseRowsStep ([], "")).1
    rw [List.foldl_append, List.foldl_append, List.foldl_cons,
      hstep (pre.foldl parseRowsStep ([], "")) row hmem hfam]
  · intro acc row hmem hempty
    cases hpro : row.proCell with
    | none => simp [parseRowsStep, hmem, hpro]
    | some p => simp [parseRowsStep, hmem, hpro, hempty]

/-- Witness for C9: a header row with no family cell leaves the state untouched. -/
theorem family_header_missing_cell_noop_witness :
    parseRowsStep ([], "Vacuno") ⟨["familias_subasta"], none, none, "", []⟩
      = ([], "Vacuno") :=
  family_header_missing_cell_noop.1 ([], "Vacuno")
    ⟨["familias_subasta"], none, none, "", []⟩ (by decide) rfl

/-- Counterexample for C7: on a title cell reading `99-99-2024` the function hands
the matched digits to the `date` constructor, which raises `ValueError` (month 99),
so `extract_table_date` does not always return a date. -/
theorem extract_table_date_raises_cex :
    extract_table_date ⟨some "99-99-2024", none, none⟩ ⟨2024, 1, 1⟩ = none := by
  decide

/-- Claim C7 (amended): `extract_table_date` returns the fallback when the title cell
is absent or carries no `dd-mm-yyyy` pattern, and otherwise returns the result of the
`date` constructor on the first match — a date when the digits form a valid calendar
date, an error (`none`) when they do not. -/
theorem extract_table_date_fallback (doc : Doc) (fb : PyDate) :
    (doc.titNombreder = none → extract_table_date doc fb = some fb) ∧
    (∀ t : String, doc.titNombreder = some t → findDatePattern t.data = none →
      extract_table_date doc fb = some fb) ∧
    (∀ (t : String) (d m y : Nat), doc.titNombreder = some t →
      findDatePattern t.data = some (d, m, y) →
      extract_table_date doc fb = mkDate y m d) := by
  refine ⟨?_, ?_, ?_⟩
  · intro h
    simp [extract_table_date, h]
  · intro t ht hfind
    simp [extract_table_date, ht, hfind]
  · intro t d m y ht hfind
    simp [extract_table_date, ht, hfind]

/-- Witness for C7 (amended): with no title cell the requested fallback date comes
back unchanged. -/
theorem extract_table_date_fallback_witness :
    extract_table_date ⟨none, none, none⟩ ⟨2024, 1, 1⟩ = some ⟨2024, 1, 1⟩ :=
  (extract_table_date_fallback ⟨none, none, none⟩ ⟨2024, 1, 1⟩).1 rfl

/-- Counterexample for C8: a pair whose document yields zero parsed rows can abort
the whole run instead of continuing, because the displayed-date extraction runs
before the zero-row check and raises on an invalid matched date; the store is still
untouched, but the loop does not reach the next pair. -/
theorem processPair_zero_rows_abort_cex :
    parse_rows ⟨some "99-99-2024", some "Subasta X", none⟩ = [] ∧
    has_error_response "<td class=titNombreder>99-99-2024</td>" = false ∧
    processPair (mkStore [] [] [] []) 1 ⟨2024, 1, 1⟩
      (.page "<td class=titNombreder>99-99-2024</td>"
        ⟨some "99-99-2024", some "Subasta X", none⟩) = none := by
  refine ⟨rfl, by decide, by decide⟩

/-- Claim C8 (amended): for a pair classified as an error page the driver leaves the
store entirely unchanged and continues; for a pair with zero parsed rows it never
mutates the store, either continuing with it unchanged or aborting the run on the
date `ValueError` before the zero-row check. -/
theorem processPair_skip_frame (store : Store) (sid : Int) (day : PyDate)
    (html : String) (doc : Doc) :
    (has_error_response html = true →
      processPair store sid day (.page html doc) = some (store, 0)) ∧
    (parse_rows doc = [] →
      processPair store sid day (.page html doc) = some (store, 0) ∨
      processPair store sid day (.page html doc) = none) := by
  constructor
  · intro herr
    simp [processPair, herr]
  · intro hrows
    cases herr : has_error_response html with
    | true =>
      left
      simp [processPair, herr]
    | false =>
      cases hdate : extract_table_date doc day with
      | none =>
        right
        simp [processPair, herr, hdate]
      | some d =>
        left
        simp [processPair, herr, hdate, hrows]

/-- Witness for C8 (amended): an error-classified page leaves the empty store
unchanged and the pair completes normally. -/
theorem processPair_skip_frame_witness :
    processPair (mkStore [] [] [] []) 1 ⟨2024, 1, 1⟩
        (.page "ERROR" ⟨none, none, none⟩)
      = some (mkStore [] [] [] [], 0) :=
  (processPair_skip_frame (mkStore [] [] [] []) 1 ⟨2024, 1, 1⟩ "ERROR"
    ⟨none, none, none⟩).1 (by decide)
